import Mathlib

/-!
Verification of the Local Volume Explorer data-to-visual pipeline.

The definitions below are a shallow embedding of the JavaScript sources:
* `loadData` embeds the record normalization in `src/utils/dataUtils.js`
  (mass-scale pre-scan, coordinate filter, unit conversion, record build);
* `keepRec`, `filterRecords`, `annotOne`, `annotate`, `processRecords` embed
  the `processedData` memo in `src/App.jsx` (distance/mass/local-group
  filter followed by the `isMatch` annotation);
* `matchedGalaxy`, `markerPosition`, `getMagmaColor`, `baseSize` embed the
  per-point loop of `src/components/GalaxyParticles.jsx`;
* `handleLocate` embeds the spherical-to-Cartesian conversion in
  `src/components/UIOverlay.jsx`.

Numeric CSV cells are embedded as rationals (every parsed decimal literal is
one); values produced by `Math.log10` and the trigonometric functions live in
`ℝ`.  JavaScript `null`/`undefined` cells are `Option.none`, and code that
would throw on `null` (the `name.toLowerCase()` call) returns `Option.none`.
-/

namespace LVE

/-- `String.prototype.toLowerCase` on a name, character by character. -/
def lowerStr (s : List Char) : List Char := s.map Char.toLower

/-- `startsW hay pre` : `pre` is an initial run of `hay`. -/
def startsW : List Char → List Char → Bool
  | _, [] => true
  | [], _ :: _ => false
  | a :: as, b :: bs => a = b && startsW as bs

/-- `containsSub hay sub` : JavaScript `hay.includes(sub)`. -/
def containsSub : List Char → List Char → Bool
  | [], sub => sub.isEmpty
  | a :: t, sub => startsW (a :: t) sub || containsSub t sub

/-- A parsed CSV row (`header: true, dynamicTyping: true`).  `none` models a
`null`/missing cell.  `rowId` models an `id` column among the passthrough
fields (`none` = the input table has no such column for this row). -/
structure RawRow where
  sg_xx : Option ℚ
  sg_yy : Option ℚ
  sg_zz : Option ℚ
  mass_stellar : Option ℚ
  distance : Option ℚ
  name : Option (List Char)
  rowId : Option ℤ
  deriving DecidableEq, Repr

/-- The canonical record emitted by `loadData` (`dataUtils.js`, lines 41-47).
`id` is the value of the final object's `id` key: the object literal writes
`id: index` first and then spreads `...row`, so a row's own `id` column
overrides the index. -/
structure GalaxyRecord where
  id : ℤ
  x : ℚ
  y : ℚ
  z : ℚ
  mass_log : ℝ
  dist_mpc : ℚ
  name : Option (List Char)

/-- `row.sg_xx != null && row.sg_yy != null && row.sg_zz != null`
(`dataUtils.js`, line 28). -/
def coordsOk (r : RawRow) : Bool :=
  r.sg_xx.isSome && r.sg_yy.isSome && r.sg_zz.isSome

/-- One step of the pre-scan `if (row.mass_stellar > maxMass) maxMass = ...`
(`dataUtils.js`, line 22); a missing cell compares false and is skipped. -/
def maxMassStep (acc : ℚ) (r : RawRow) : ℚ :=
  match r.mass_stellar with
  | some m => if acc < m then m else acc
  | none => acc

/-- The pre-scan accumulator, started at `0` (`dataUtils.js`, lines 20-23). -/
def maxMassOf (rows : List RawRow) : ℚ := rows.foldl maxMassStep 0

/-- `const isLinear = maxMass > 20` (`dataUtils.js`, line 24). -/
def isLinearScale (rows : List RawRow) : Bool := decide (20 < maxMassOf rows)

/-- `row.mass_stellar || 0` (`dataUtils.js`, line 36). -/
def massOr0 (r : RawRow) : ℚ := r.mass_stellar.getD 0

/-- Build one record (`dataUtils.js`, lines 29-47): kpc → Mpc division by
1000, conditional `Math.log10`, and the object literal
`{ id: index, ...row, x, y, z, mass_log, dist_mpc }`. -/
noncomputable def mkRec (isLin : Bool) (index : ℕ) (r : RawRow) : GalaxyRecord :=
  let m := massOr0 r
  { id := r.rowId.getD (index : ℤ)
    x := r.sg_xx.getD 0 / 1000
    y := r.sg_yy.getD 0 / 1000
    z := r.sg_zz.getD 0 / 1000
    mass_log := if isLin = true ∧ 0 < m then Real.logb 10 (m : ℝ) else ((m : ℚ) : ℝ)
    dist_mpc := r.distance.getD 0 / 1000
    name := r.name }

/-- `.map((row, index) => ...)` over the coordinate-filtered rows: `index`
counts positions in the filtered array. -/
noncomputable def loadAux (isLin : Bool) : ℕ → List RawRow → List GalaxyRecord
  | _, [] => []
  | i, r :: rs => mkRec isLin i r :: loadAux isLin (i + 1) rs

/-- The pure core of `loadData` (`dataUtils.js`, lines 19-48): pre-scan the
raw rows for the scale decision, drop rows missing a coordinate, and build
records with sequential indices. -/
noncomputable def loadData (rows : List RawRow) : List GalaxyRecord :=
  loadAux (isLinearScale rows) 0 (rows.filter coordsOk)

/-- The filter state held by `App` (`App.jsx`). -/
structure FilterState where
  maxDist : ℚ
  minMass : ℝ
  localGroupOnly : Bool
  searchQuery : List Char

/-- The filter predicate of `processedData` (`App.jsx`, lines 54-64), with
the three early returns in source order. -/
noncomputable def keepRec (fs : FilterState) (d : GalaxyRecord) : Bool :=
  if fs.maxDist < d.dist_mpc then false
  else if d.mass_log < fs.minMass then false
  else if fs.localGroupOnly = true ∧ (3 : ℚ) < d.dist_mpc then false
  else true

/-- `data.filter(d => ...)` (`App.jsx`, lines 54-64). -/
noncomputable def filterRecords (recs : List GalaxyRecord) (fs : FilterState) :
    List GalaxyRecord :=
  recs.filter (keepRec fs)

/-- A record with the `isMatch` flag added by the `.map` of `processedData`. -/
structure AnnRecord extends GalaxyRecord where
  isMatch : Bool

/-- `({...d, isMatch: searchQuery ? d.name.toLowerCase().includes(lowerQuery)
: true})` (`App.jsx`, lines 65-69).  A record whose `name` is `null` makes
the non-empty-query branch throw, embedded as `none`. -/
def annotOne (q : List Char) (d : GalaxyRecord) : Option AnnRecord :=
  if q.isEmpty then some ⟨d, true⟩
  else (d.name.map fun n => ⟨d, containsSub (lowerStr n) (lowerStr q)⟩)

/-- The `.map` over the surviving records; the first throwing element aborts
the whole computation. -/
def annotate (q : List Char) : List GalaxyRecord → Option (List AnnRecord)
  | [] => some []
  | d :: rest =>
      (annotOne q d).bind fun a => (annotate q rest).bind fun as => some (a :: as)

/-- `processedData` (`App.jsx`, lines 52-70): filter, then annotate. -/
noncomputable def processRecords (recs : List GalaxyRecord) (fs : FilterState) :
    Option (List AnnRecord) :=
  annotate fs.searchQuery (filterRecords recs fs)

/-- One turn of the per-point loop's match selection
(`GalaxyParticles.jsx`, lines 139-141): `if (searchActive && d.isMatch)
match = d`. -/
def matchStep (searchActive : Bool) (acc : Option AnnRecord) (d : AnnRecord) :
    Option AnnRecord :=
  if searchActive && d.isMatch then some d else acc

/-- The `matchedGalaxy` computed by the `data.forEach` loop, starting from
`let match = null`. -/
def matchedGalaxy (searchActive : Bool) (data : List AnnRecord) : Option AnnRecord :=
  data.foldl (matchStep searchActive) none

/-- The position handed to the `BlinkingMarker`
(`GalaxyParticles.jsx`, lines 249-251). -/
def markerPosition (searchActive : Bool) (data : List AnnRecord) :
    Option (ℚ × ℚ × ℚ) :=
  (matchedGalaxy searchActive data).map fun d => (d.x, d.y, d.z)

/-- An RGB color, channels in `[0, 1]` as `THREE.Color` stores them. -/
structure RGB where
  r : ℝ
  g : ℝ
  b : ℝ

/-- `THREE.Color.lerpColors(c1, c2, a)`: per-channel linear interpolation. -/
noncomputable def lerpColors (c1 c2 : RGB) (a : ℝ) : RGB :=
  ⟨c1.r + (c2.r - c1.r) * a, c1.g + (c2.g - c1.g) * a, c1.b + (c2.b - c1.b) * a⟩

/-- The six control points of `colorStops`
(`GalaxyParticles.jsx`, lines 108-115); each hex channel is `value / 255`. -/
noncomputable def colorStops : List (ℝ × RGB) :=
  [(0, ⟨0, 0, 4 / 255⟩),
   (0.2, ⟨59 / 255, 15 / 255, 112 / 255⟩),
   (0.4, ⟨140 / 255, 41 / 255, 129 / 255⟩),
   (0.6, ⟨222 / 255, 73 / 255, 104 / 255⟩),
   (0.8, ⟨254 / 255, 159 / 255, 109 / 255⟩),
   (1, ⟨252 / 255, 253 / 255, 191 / 255⟩)]

/-- The segment-search loop of `getMagmaColor`
(`GalaxyParticles.jsx`, lines 122-128): the first pair of consecutive stops
with `stops[i].t <= t <= stops[i+1].t` is interpolated; falling through the
loop returns the last stop's color. -/
noncomputable def segColor (t : ℝ) : List (ℝ × RGB) → RGB
  | p :: q :: rest =>
      if p.1 ≤ t ∧ t ≤ q.1 then lerpColors p.2 q.2 ((t - p.1) / (q.1 - p.1))
      else segColor t (q :: rest)
  | [p] => p.2
  | [] => ⟨0, 0, 0⟩

/-- `getMagmaColor` (`GalaxyParticles.jsx`, lines 117-129):
`t = Math.max(0, Math.min(1, t))`, then the segment search. -/
noncomputable def getMagmaColor (t0 : ℝ) : RGB :=
  segColor (max 0 (min 1 t0)) colorStops

/-- `const t = (d.mass_log - 6.0) / 5.5` (`GalaxyParticles.jsx`, line 151). -/
noncomputable def tOfMass (m : ℝ) : ℝ := (m - 6.0) / 5.5

/-- The color given to a point of mass `m`
(`GalaxyParticles.jsx`, lines 151-152). -/
noncomputable def colorOfMass (m : ℝ) : RGB := getMagmaColor (tOfMass m)

/-- The size buckets (`GalaxyParticles.jsx`, lines 158-165). -/
noncomputable def baseSize (m : ℝ) : ℝ :=
  if m < 8 then 1.5 else if m < 10 then 2.5 else 4

/-- `handleLocate` (`UIOverlay.jsx`, lines 33-36): degrees to radians via
`d2r = Math.PI / 180`, then spherical to Cartesian. -/
noncomputable def handleLocate (ra dec dist : ℝ) : ℝ × ℝ × ℝ :=
  let d2r := Real.pi / 180
  (dist * Real.cos (dec * d2r) * Real.cos (ra * d2r),
   dist * Real.cos (dec * d2r) * Real.sin (ra * d2r),
   dist * Real.sin (dec * d2r))

/-! ### Definitions following the specification's words

These are written from the spec, to be compared with the embeddings above. -/

/-- The spec's scale pre-scan: "maxMass = the maximum mass_stellar over all
rows (missing treated as 0)". -/
def specMaxMass (rows : List RawRow) : ℚ := (rows.map massOr0).foldr max 0

/-- The spec's color mapper: `t = clamp((mass_log - 6.0) / 5.5, 0, 1)`, then
linear interpolation between the two consecutive control points whose
positions bracket `t`, written out segment by segment. -/
noncomputable def specColor (m : ℝ) : RGB :=
  let t := max 0 (min 1 ((m - 6.0) / 5.5))
  if t ≤ 0.2 then lerpColors ⟨0, 0, 4 / 255⟩ ⟨59 / 255, 15 / 255, 112 / 255⟩ ((t - 0) / (0.2 - 0))
  else if t ≤ 0.4 then lerpColors ⟨59 / 255, 15 / 255, 112 / 255⟩ ⟨140 / 255, 41 / 255, 129 / 255⟩ ((t - 0.2) / (0.4 - 0.2))
  else if t ≤ 0.6 then lerpColors ⟨140 / 255, 41 / 255, 129 / 255⟩ ⟨222 / 255, 73 / 255, 104 / 255⟩ ((t - 0.4) / (0.6 - 0.4))
  else if t ≤ 0.8 then lerpColors ⟨222 / 255, 73 / 255, 104 / 255⟩ ⟨254 / 255, 159 / 255, 109 / 255⟩ ((t - 0.6) / (0.8 - 0.6))
  else lerpColors ⟨254 / 255, 159 / 255, 109 / 255⟩ ⟨252 / 255, 253 / 255, 191 / 255⟩ ((t - 0.8) / (1 - 0.8))

/-! ### Concrete inputs used by individual claims -/

/-- A record named "Andromeda Galaxy". -/
def gaAndromeda : GalaxyRecord := ⟨0, 0, 0, 0, 10, 1, some ("Andromeda Galaxy".toList)⟩

/-- A record named "Sculptor". -/
def gaSculptor : GalaxyRecord := ⟨1, 0, 0, 0, 8, 1, some ("Sculptor".toList)⟩

/-- The C10 input row: complete coordinates, but no name column value. -/
def c10Row : RawRow := ⟨some 0, some 0, some 0, none, none, none, none⟩

/-- The C10 filter state: permissive bounds and the non-empty query "a". -/
def c10Fs : FilterState := ⟨11, 0, false, ['a']⟩

/-- The two records of the C1 counterexample: both match an active search,
`c1RecA` first in iteration order at position `(0,0,0)`, `c1RecB` second at
position `(1,1,1)`. -/
def c1RecA : AnnRecord := ⟨⟨0, 0, 0, 0, 7, 1, none⟩, true⟩

def c1RecB : AnnRecord := ⟨⟨1, 1, 1, 1, 7, 1, none⟩, true⟩

/-- The C2 counterexample row: valid coordinates, and an `id` passthrough
column holding `7`. -/
def c2BadRow : RawRow := ⟨some 1000, some 2000, some 3000, none, none, none, some 7⟩

/-- The C2 witness rows: two coordinate-complete rows, neither carrying an
`id` column. -/
def c2Rows : List RawRow :=
  [⟨some 1000, some 2000, some 3000, some 5, some 4000, none, none⟩,
   ⟨some 0, some 0, some 0, none, none, none, none⟩]

/-! ### Helper lemmas -/

theorem loadAux_length (isLin : Bool) (i : ℕ) (l : List RawRow) :
    (loadAux isLin i l).length = l.length := by
  induction l generalizing i with
  | nil => rfl
  | cons r rs ih => simp [loadAux, ih]

/-- The field-by-field correspondence between the records `loadAux` builds
and the rows it builds them from. -/
theorem loadAux_fields (isLin : Bool) (i : ℕ) (l : List RawRow) :
    List.Forall₂ (fun rec row => rec.name = row.name ∧
      rec.x = row.sg_xx.getD 0 / 1000 ∧ rec.y = row.sg_yy.getD 0 / 1000 ∧
      rec.z = row.sg_zz.getD 0 / 1000 ∧ rec.dist_mpc = row.distance.getD 0 / 1000)
      (loadAux isLin i l) l := by
  induction l generalizing i with
  | nil => exact List.Forall₂.nil
  | cons r rs ih => exact List.Forall₂.cons ⟨rfl, rfl, rfl, rfl, rfl⟩ (ih _)

theorem maxMassStep_eq (acc : ℚ) (h : 0 ≤ acc) (r : RawRow) :
    maxMassStep acc r = max acc (massOr0 r) := by
  unfold maxMassStep massOr0
  cases r.mass_stellar with
  | none => simp [max_eq_left h]
  | some m =>
      simp only [Option.getD_some]
      split_ifs with hlt
      · exact (max_eq_right hlt.le).symm
      · exact (max_eq_left (not_lt.1 hlt)).symm

theorem maxMassOf_foldl (rows : List RawRow) (acc : ℚ) (h : 0 ≤ acc) :
    rows.foldl maxMassStep acc = max acc (specMaxMass rows) := by
  induction rows generalizing acc with
  | nil => simpa [specMaxMass] using (max_eq_left h).symm
  | cons r rs ih =>
      have hstep : 0 ≤ maxMassStep acc r := by
        rw [maxMassStep_eq acc h]; exact le_trans h (le_max_left _ _)
      calc (r :: rs).foldl maxMassStep acc
          = rs.foldl maxMassStep (maxMassStep acc r) := rfl
        _ = max (maxMassStep acc r) (specMaxMass rs) := ih _ hstep
        _ = max (max acc (massOr0 r)) (specMaxMass rs) := by rw [maxMassStep_eq acc h]
        _ = max acc (max (massOr0 r) (specMaxMass rs)) := max_assoc ..
        _ = max acc (specMaxMass (r :: rs)) := rfl

theorem specMaxMass_nonneg (rows : List RawRow) : 0 ≤ specMaxMass rows := by
  induction rows with
  | nil => simp [specMaxMass]
  | cons r rs ih => exact le_trans ih (le_max_right (massOr0 r) _)

/-- The imperative pre-scan of `dataUtils.js` computes the spec's
"maximum `mass_stellar` over all rows, missing treated as 0". -/
theorem maxMassOf_eq_specMaxMass (rows : List RawRow) :
    maxMassOf rows = specMaxMass rows := by
  rw [maxMassOf, maxMassOf_foldl rows 0 le_rfl]
  exact max_eq_right (specMaxMass_nonneg rows)

theorem loadAux_mass (isLin : Bool) (i : ℕ) (l : List RawRow) :
    List.Forall₂ (fun rec row =>
      rec.mass_log = if isLin = true ∧ 0 < massOr0 row
        then Real.logb 10 ((massOr0 row : ℚ) : ℝ) else ((massOr0 row : ℚ) : ℝ))
      (loadAux isLin i l) l := by
  induction l generalizing i with
  | nil => exact List.Forall₂.nil
  | cons r rs ih => exact List.Forall₂.cons rfl (ih _)

theorem loadAux_ids (isLin : Bool) (i : ℕ) (l : List RawRow)
    (h : ∀ r ∈ l, r.rowId = none) :
    (loadAux isLin i l).map (·.id) = (List.range' i l.length).map (fun n : ℕ => (n : ℤ)) := by
  induction l generalizing i with
  | nil => rfl
  | cons r rs ih =>
      have h0 : r.rowId = none := h r (List.mem_cons_self r rs)
      have ih' := ih (i + 1) (fun x hx => h x (List.mem_cons_of_mem _ hx))
      simp [loadAux, mkRec, h0, List.range'_succ, ih']

theorem matchStep_foldl (l : List AnnRecord) (acc : Option AnnRecord) :
    l.foldl (matchStep true) acc = ((l.filter (fun d => d.isMatch)).getLast?).elim acc some := by
  induction l generalizing acc with
  | nil => rfl
  | cons d t ih =>
      rw [List.foldl_cons, ih]
      by_cases hd : d.isMatch
      · have hstep : matchStep true acc d = some d := by simp [matchStep, hd]
        rw [hstep, List.filter_cons_of_pos (by simpa using hd)]
        rcases hft : t.filter (fun d => d.isMatch) with _ | ⟨y, ys⟩
        · rw [hft]; rfl
        · rw [hft, List.getLast?_cons_cons]
          cases hgl : (y :: ys).getLast? with
          | none => simp at hgl
          | some g => rfl
      · have hstep : matchStep true acc d = acc := by simp [matchStep, hd]
        rw [hstep, List.filter_cons_of_neg (by simpa using hd)]

/-! ### Claim theorems -/

/-- Claim C1 (corrected): when a non-empty search is active, the record whose
position reaches the `BlinkingMarker` is the LAST record with `isMatch = true`
in iteration order of the filtered sequence (the loop overwrites `match` on
every hit), not the first; with search inactive no record is selected. -/
theorem C1_marker_gets_last_match :
    (∀ data : List AnnRecord,
      matchedGalaxy true data = (data.filter (fun d => d.isMatch)).getLast?) ∧
    (∀ data : List AnnRecord, matchedGalaxy false data = none) ∧
    (∀ data : List AnnRecord, markerPosition true data =
      ((data.filter (fun d => d.isMatch)).getLast?).map fun d => (d.x, d.y, d.z)) := by
  have hlast : ∀ data : List AnnRecord,
      matchedGalaxy true data = (data.filter (fun d => d.isMatch)).getLast? := by
    intro data
    rw [matchedGalaxy, matchStep_foldl]
    cases (data.filter (fun d => d.isMatch)).getLast? <;> rfl
  refine ⟨hlast, ?_, ?_⟩
  · intro data
    induction data with
    | nil => rfl
    | cons d t ih => simpa [matchedGalaxy, matchStep] using ih
  · intro data
    rw [markerPosition, hlast]

/-- The record survives the filter iff it passes the distance bound, the mass
bound, and (when the local-group toggle is on) the 3 Mpc bound. -/
theorem keepRec_iff (fs : FilterState) (d : GalaxyRecord) :
    keepRec fs d = true ↔
      d.dist_mpc ≤ fs.maxDist ∧ fs.minMass ≤ d.mass_log ∧
        (fs.localGroupOnly = true → d.dist_mpc ≤ 3) := by
  unfold keepRec
  split_ifs with h1 h2 h3
  · simp only [Bool.false_eq_true, false_iff]
    rintro ⟨ha, -, -⟩; exact absurd h1 (not_lt.2 ha)
  · simp only [Bool.false_eq_true, false_iff]
    rintro ⟨-, hb, -⟩; exact absurd h2 (not_lt.2 hb)
  · simp only [Bool.false_eq_true, false_iff]
    rintro ⟨-, -, hc⟩; exact absurd h3.2 (not_lt.2 (hc h3.1))
  · simp only [true_iff]
    exact ⟨not_lt.1 h1, not_lt.1 h2, fun hl => le_of_not_lt (fun hd => h3 ⟨hl, hd⟩)⟩

/-- Claim C4: the filter keeps exactly the records with
`dist_mpc ≤ maxDist`, `mass_log ≥ minMass` and, when `localGroupOnly`,
`dist_mpc ≤ 3`, preserving order; a record at distance 5 is excluded under
`maxDist = 3` whatever its mass, and one at distance 2 with `mass_log = 5.9`
is excluded under `minMass = 6`. -/
theorem C4_filter_semantics :
    (∀ (recs : List GalaxyRecord) (fs : FilterState) (r : GalaxyRecord),
      r ∈ filterRecords recs fs ↔
        r ∈ recs ∧ r.dist_mpc ≤ fs.maxDist ∧ fs.minMass ≤ r.mass_log ∧
          (fs.localGroupOnly = true → r.dist_mpc ≤ 3)) ∧
    (∀ (recs : List GalaxyRecord) (fs : FilterState),
      (filterRecords recs fs).Sublist recs) ∧
    (∀ mlog : ℝ, filterRecords [⟨0, 0, 0, 0, mlog, 5, none⟩] ⟨3, 6, true, []⟩ = []) ∧
    filterRecords [⟨0, 0, 0, 0, 5.9, 2, none⟩] ⟨3, 6, true, []⟩ = [] := by
  refine ⟨?_, ?_, ?_, ?_⟩
  · intro recs fs r
    rw [filterRecords, List.mem_filter, keepRec_iff]
  · intro recs fs
    exact List.filter_sublist recs
  · intro mlog
    have hk : keepRec ⟨3, 6, true, []⟩ (⟨0, 0, 0, 0, mlog, 5, none⟩ : GalaxyRecord) = false := by
      rw [keepRec, if_pos (by norm_num)]
    simp [filterRecords, List.filter_cons, hk]
  · have hk : keepRec ⟨3, 6, true, []⟩ (⟨0, 0, 0, 0, 5.9, 2, none⟩ : GalaxyRecord) = false := by
      rw [keepRec, if_neg (by norm_num), if_pos (by norm_num)]
    simp [filterRecords, List.filter_cons, hk]

/-- What a successful per-record annotation says: the record is unchanged and
`isMatch` reflects the empty-query / case-insensitive-substring rule. -/
theorem annotOne_some (q : List Char) (d : GalaxyRecord) (a : AnnRecord)
    (h : annotOne q d = some a) :
    a.toGalaxyRecord = d ∧
      (a.isMatch = true ↔ (q = [] ∨ ∃ n, d.name = some n ∧
        containsSub (lowerStr n) (lowerStr q) = true)) := by
  unfold annotOne at h
  by_cases hq : q.isEmpty
  · rw [if_pos hq] at h
    obtain rfl : a = ⟨d, true⟩ := (Option.some_inj.1 h).symm
    have hq' : q = [] := by simpa using hq
    exact ⟨rfl, by simp [hq']⟩
  · rw [if_neg hq] at h
    have hq' : q ≠ [] := by simpa using hq
    cases hn : d.name with
    | none => rw [hn] at h; simp at h
    | some n =>
        rw [hn] at h
        obtain rfl : a = ⟨d, containsSub (lowerStr n) (lowerStr q)⟩ :=
          (Option.some_inj.1 (by simpa using h)).symm
        refine ⟨rfl, ?_, ?_⟩
        · intro hc
          exact Or.inr ⟨n, rfl, hc⟩
        · rintro (hqq | ⟨n', hn', hc⟩)
          · exact absurd hqq hq'
          · cases Option.some_inj.1 hn'
            exact hc

/-- A successful annotation pass pairs output and input records one to one,
each pair satisfying the `isMatch` rule. -/
theorem annotate_forall₂ (q : List Char) :
    ∀ (recs : List GalaxyRecord) (out : List AnnRecord), annotate q recs = some out →
      List.Forall₂ (fun (a : AnnRecord) (d : GalaxyRecord) =>
        a.toGalaxyRecord = d ∧
          (a.isMatch = true ↔ (q = [] ∨ ∃ n, d.name = some n ∧
            containsSub (lowerStr n) (lowerStr q) = true))) out recs := by
  intro recs
  induction recs with
  | nil =>
      intro out h
      obtain rfl : out = [] := by simpa [annotate] using h.symm
      exact List.Forall₂.nil
  | cons d rest ih =>
      intro out h
      simp only [annotate] at h
      cases h1 : annotOne q d with
      | none => rw [h1] at h; simp at h
      | some a =>
          rw [h1] at h
          cases h2 : annotate q rest with
          | none => rw [h2] at h; simp at h
          | some as =>
              rw [h2] at h
              obtain rfl : out = a :: as := (Option.some_inj.1 (by simpa using h)).symm
              exact List.Forall₂.cons (annotOne_some q d a h1) (ih as h2)

/-- The empty query annotates every record with `isMatch = true` and never
fails. -/
theorem annotate_empty_query (recs : List GalaxyRecord) :
    annotate [] recs = some (recs.map (fun d => ⟨d, true⟩)) := by
  induction recs with
  | nil => rfl
  | cons d rest ih => simp [annotate, annotOne, ih]

/-- Claim C5: surviving records get `isMatch = true` when the query is empty,
and otherwise `isMatch` is true iff the lowercased query is a substring of
the lowercased name; the query "andromeda" matches "Andromeda Galaxy" and
not "Sculptor". -/
theorem C5_isMatch_semantics :
    (∀ recs : List GalaxyRecord,
      annotate [] recs = some (recs.map (fun d => ⟨d, true⟩))) ∧
    (∀ (q : List Char) (recs : List GalaxyRecord) (out : List AnnRecord),
      annotate q recs = some out →
      List.Forall₂ (fun (a : AnnRecord) (d : GalaxyRecord) =>
        a.toGalaxyRecord = d ∧
          (a.isMatch = true ↔ (q = [] ∨ ∃ n, d.name = some n ∧
            containsSub (lowerStr n) (lowerStr q) = true))) out recs) ∧
    (annotate ("andromeda".toList) [gaAndromeda, gaSculptor]).map
        (fun l => l.map (fun a => a.isMatch)) = some [true, false] :=
  ⟨annotate_empty_query, annotate_forall₂, by decide⟩

/-- For a clamped argument the segment search picks exactly the bracket of
consecutive control points containing `t` and linearly interpolates it. -/
theorem segColor_stops (t : ℝ) (h0 : 0 ≤ t) (h1 : t ≤ 1) :
    segColor t colorStops =
      if t ≤ 0.2 then
        lerpColors ⟨0, 0, 4 / 255⟩ ⟨59 / 255, 15 / 255, 112 / 255⟩ ((t - 0) / (0.2 - 0))
      else if t ≤ 0.4 then
        lerpColors ⟨59 / 255, 15 / 255, 112 / 255⟩ ⟨140 / 255, 41 / 255, 129 / 255⟩ ((t - 0.2) / (0.4 - 0.2))
      else if t ≤ 0.6 then
        lerpColors ⟨140 / 255, 41 / 255, 129 / 255⟩ ⟨222 / 255, 73 / 255, 104 / 255⟩ ((t - 0.4) / (0.6 - 0.4))
      else if t ≤ 0.8 then
        lerpColors ⟨222 / 255, 73 / 255, 104 / 255⟩ ⟨254 / 255, 159 / 255, 109 / 255⟩ ((t - 0.6) / (0.8 - 0.6))
      else
        lerpColors ⟨254 / 255, 159 / 255, 109 / 255⟩ ⟨252 / 255, 253 / 255, 191 / 255⟩ ((t - 0.8) / (1 - 0.8)) := by
  rw [colorStops]
  rcases le_or_lt t 0.2 with h2 | h2
  · rw [segColor, if_pos ⟨h0, h2⟩, if_pos h2]
  · rw [segColor, if_neg (fun hc => absurd hc.2 (not_le.2 h2)), if_neg (not_le.2 h2)]
    rcases le_or_lt t 0.4 with h3 | h3
    · rw [segColor, if_pos ⟨h2.le, h3⟩, if_pos h3]
    · rw [segColor, if_neg (fun hc => absurd hc.2 (not_le.2 h3)), if_neg (not_le.2 h3)]
      rcases le_or_lt t 0.6 with h4 | h4
      · rw [segColor, if_pos ⟨h3.le, h4⟩, if_pos h4]
      · rw [segColor, if_neg (fun hc => absurd hc.2 (not_le.2 h4)), if_neg (not_le.2 h4)]
        rcases le_or_lt t 0.8 with h5 | h5
        · rw [segColor, if_pos ⟨h4.le, h5⟩, if_pos h5]
        · rw [segColor, if_neg (fun hc => absurd hc.2 (not_le.2 h5)),
            if_neg (not_le.2 h5), segColor, if_pos ⟨h5.le, h1⟩]

/-- Claim C6: the color of a mass value is the claim's clamped-fraction
piecewise-linear interpolation over the six-stop palette; `mass_log = 6`
gives exactly the first stop, `11.5` exactly the last, and the out-of-range
inputs `3.25` and `20` clamp to the first and last stops. -/
theorem C6_colormap :
    (∀ m : ℝ, colorOfMass m = specColor m) ∧
    colorOfMass 6 = ⟨0, 0, 4 / 255⟩ ∧
    colorOfMass 11.5 = ⟨252 / 255, 253 / 255, 191 / 255⟩ ∧
    colorOfMass 3.25 = ⟨0, 0, 4 / 255⟩ ∧
    colorOfMass 20 = ⟨252 / 255, 253 / 255, 191 / 255⟩ := by
  have hmain : ∀ m : ℝ, colorOfMass m = specColor m := by
    intro m
    rw [colorOfMass, getMagmaColor, tOfMass, specColor]
    exact segColor_stops _ (le_max_left _ _) (max_le (by norm_num) (min_le_left _ _))
  have hfirst : ∀ m : ℝ, max 0 (min 1 ((m - 6.0) / 5.5)) = 0 →
      colorOfMass m = ⟨0, 0, 4 / 255⟩ := by
    intro m hm
    rw [colorOfMass, getMagmaColor, tOfMass, hm, colorStops, segColor,
      if_pos ⟨le_refl (0 : ℝ), by norm_num⟩, lerpColors]
    norm_num
  have hlast : ∀ m : ℝ, max 0 (min 1 ((m - 6.0) / 5.5)) = 1 →
      colorOfMass m = ⟨252 / 255, 253 / 255, 191 / 255⟩ := by
    intro m hm
    rw [colorOfMass, getMagmaColor, tOfMass, hm, colorStops, segColor,
      if_neg (by norm_num), segColor, if_neg (by norm_num), segColor,
      if_neg (by norm_num), segColor, if_neg (by norm_num), segColor,
      if_pos ⟨by norm_num, le_refl (1 : ℝ)⟩, lerpColors]
    norm_num
  refine ⟨hmain, ?_, ?_, ?_, ?_⟩
  · exact hfirst 6 (by norm_num)
  · exact hlast 11.5 (by norm_num)
  · exact hfirst 3.25 (by norm_num)
  · exact hlast 20 (by norm_num)

/-- Claim C10: normalization emits a record with a null name (it checks only
the three coordinates), and the filter pass's annotation step then fails on
any non-empty query instead of producing `isMatch = false`. -/
theorem C10_null_name_annotation_failure :
    (loadData [c10Row]).map (fun r => r.name) = [none] ∧
    processRecords (loadData [c10Row]) c10Fs = none := by
  have hload : loadData [c10Row] =
      [⟨0, 0, 0, 0, (0 : ℝ), 0, none⟩] := by
    simp [loadData, loadAux, mkRec, isLinearScale, maxMassOf, maxMassStep,
      coordsOk, c10Row, massOr0]
  constructor
  · rw [hload]; rfl
  · rw [hload, processRecords]
    norm_num [filterRecords, keepRec, c10Fs, annotate, annotOne, List.filter_cons]

/-- Claim C1 counterexample: with two matching records the marker receives
the position of the second (last) one, not that of the first. -/
theorem C1_first_match_counterexample :
    markerPosition true [c1RecA, c1RecB] = some (1, 1, 1) ∧
    markerPosition true [c1RecA, c1RecB] ≠ some (c1RecA.x, c1RecA.y, c1RecA.z) := by
  constructor
  · rfl
  · intro h
    simp [markerPosition, matchedGalaxy, matchStep, c1RecA, c1RecB] at h

/-- Claim C2 (corrected, amended): emitted ids are the sequential indices
0, 1, … of the normalized output — and in particular pairwise distinct —
PROVIDED no input row carries an `id` passthrough column; a row's own `id`
value overrides the sequential index (the object spread `...row` follows
`id: index`). -/
theorem C2_sequential_ids :
    ∀ rows : List RawRow, (∀ r ∈ rows, r.rowId = none) →
      (loadData rows).map (·.id) =
        (List.range (loadData rows).length).map (fun n : ℕ => (n : ℤ)) ∧
      ((loadData rows).map (·.id)).Nodup := by
  intro rows h
  have hids : (loadData rows).map (·.id) =
      (List.range' 0 (rows.filter coordsOk).length).map (fun n : ℕ => (n : ℤ)) :=
    loadAux_ids _ 0 _ (fun r hr => h r (List.mem_of_mem_filter hr))
  have hlen : (loadData rows).length = (rows.filter coordsOk).length :=
    loadAux_length _ _ _
  constructor
  · rw [hids, hlen, List.range_eq_range']
  · rw [hids]
    refine List.Nodup.map ?_ (List.nodup_range' 0 (rows.filter coordsOk).length)
    exact Nat.cast_injective

/-- Claim C2 counterexample: the single emitted record's `id` is the row's
own `id` value `7`, not its sequential index `0`. -/
theorem C2_id_override_counterexample :
    (loadData [c2BadRow]).map (·.id) = [(7 : ℤ)] ∧
    (loadData [c2BadRow]).map (·.id) ≠ [(0 : ℤ)] := by
  have h : (loadData [c2BadRow]).map (·.id) = [(7 : ℤ)] := by
    simp [loadData, loadAux, mkRec, c2BadRow, coordsOk]
  refine ⟨h, ?_⟩
  rw [h]; decide

theorem C2_sequential_ids_witness :
    (∀ r ∈ c2Rows, r.rowId = none) ∧
    ((loadData c2Rows).map (·.id) =
        (List.range (loadData c2Rows).length).map (fun n : ℕ => (n : ℤ)) ∧
      ((loadData c2Rows).map (·.id)).Nodup) :=
  ⟨by decide, C2_sequential_ids c2Rows (by decide)⟩

/-- Claim C3: one global scale decision per load: with `maxMass` the maximum
`mass_stellar` over all rows (missing treated as 0), an emitted record's
`mass_log` is `log10 mass_stellar` exactly when `maxMass > 20` and its own
`mass_stellar > 0`, and is the unchanged value (0 when missing) otherwise; a
row with `mass_stellar = 0` is never log-transformed. -/
theorem C3_global_mass_scale :
    ∀ rows : List RawRow,
      ((20 < specMaxMass rows) ↔ (isLinearScale rows = true)) ∧
      List.Forall₂ (fun rec row =>
        (rec.mass_log = if 20 < specMaxMass rows ∧ 0 < massOr0 row
            then Real.logb 10 ((massOr0 row : ℚ) : ℝ) else ((massOr0 row : ℚ) : ℝ)) ∧
        (row.mass_stellar = some 0 → rec.mass_log = 0) ∧
        (row.mass_stellar = none → rec.mass_log = 0))
        (loadData rows) (rows.filter coordsOk) := by
  intro rows
  have hiff : (isLinearScale rows = true) ↔ (20 < specMaxMass rows) := by
    simp [isLinearScale, maxMassOf_eq_specMaxMass]
  refine ⟨hiff.symm, ?_⟩
  refine (loadAux_mass (isLinearScale rows) 0 (rows.filter coordsOk)).imp ?_
  intro rec row h
  have h' : rec.mass_log = if 20 < specMaxMass rows ∧ 0 < massOr0 row
      then Real.logb 10 ((massOr0 row : ℚ) : ℝ) else ((massOr0 row : ℚ) : ℝ) := by
    rw [h]; exact if_congr (and_congr_left' hiff) rfl rfl
  refine ⟨h', ?_, ?_⟩
  · intro hz
    have hm : massOr0 row = 0 := by simp [massOr0, hz]
    rw [h', hm]; simp
  · intro hz
    have hm : massOr0 row = 0 := by simp [massOr0, hz]
    rw [h', hm]; simp

/-- Claim C8: the normalized output keeps exactly the rows whose three
supergalactic coordinates are all present, in input order, and its length is
the input length minus the number of dropped rows. -/
theorem C8_drops_rows_missing_coordinates :
    ∀ rows : List RawRow,
      (loadData rows).length = rows.length - (rows.filter (fun r => ! coordsOk r)).length ∧
      List.Forall₂ (fun rec row => rec.name = row.name ∧
        rec.x = row.sg_xx.getD 0 / 1000 ∧ rec.y = row.sg_yy.getD 0 / 1000 ∧
        rec.z = row.sg_zz.getD 0 / 1000 ∧ rec.dist_mpc = row.distance.getD 0 / 1000)
        (loadData rows) (rows.filter coordsOk) := by
  intro rows
  constructor
  · rw [loadData, loadAux_length, List.length_eq_length_filter_add (l := rows) coordsOk]
    omega
  · exact loadAux_fields _ _ _

/-- Claim C7: the size classifier maps `mass_log < 8` to `1.5`,
`8 ≤ mass_log < 10` to `2.5` and `10 ≤ mass_log` to `4`; the boundary
values `8` and `10` fall into the upper bucket. -/
theorem C7_size_buckets :
    (∀ m : ℝ, m < 8 → baseSize m = 1.5) ∧
    (∀ m : ℝ, 8 ≤ m → m < 10 → baseSize m = 2.5) ∧
    (∀ m : ℝ, 10 ≤ m → baseSize m = 4) ∧
    baseSize 7.9 = 1.5 ∧ baseSize 8 = 2.5 ∧ baseSize 9.99 = 2.5 ∧ baseSize 10 = 4 := by
  refine ⟨fun m h => ?_, fun m h1 h2 => ?_, fun m h => ?_, ?_, ?_, ?_, ?_⟩
  · rw [baseSize, if_pos h]
  · rw [baseSize, if_neg (not_lt.2 h1), if_pos h2]
  · rw [baseSize, if_neg (by linarith), if_neg (by linarith)]
  all_goals norm_num [baseSize]

/-- Claim C9: `handleLocate` returns
`(d cos(dec) cos(ra), d cos(dec) sin(ra), d sin(dec))` after degree-to-radian
conversion, for all inputs with no range validation; the axis triples
`(0,0,1)`, `(90,0,1)` and `(0,90,1)` map to the three unit vectors. -/
theorem C9_handleLocate_spherical :
    (∀ ra dec d : ℝ, handleLocate ra dec d =
      (d * Real.cos (dec * (Real.pi / 180)) * Real.cos (ra * (Real.pi / 180)),
       d * Real.cos (dec * (Real.pi / 180)) * Real.sin (ra * (Real.pi / 180)),
       d * Real.sin (dec * (Real.pi / 180)))) ∧
    handleLocate 0 0 1 = (1, 0, 0) ∧
    handleLocate 90 0 1 = (0, 1, 0) ∧
    handleLocate 0 90 1 = (0, 0, 1) := by
  have h90 : (90 : ℝ) * (Real.pi / 180) = Real.pi / 2 := by ring
  refine ⟨fun _ _ _ => rfl, ?_, ?_, ?_⟩ <;>
    simp [handleLocate, h90, Real.cos_pi_div_two, Real.sin_pi_div_two]

end LVE
